import Mathlib

/-!
# A verification model of the go-mego/binding structural data-binding engine

This file gives a shallow embedding, in Lean 4, of the core binding engine of
the `binding` package (file `binding.go`): the key normalizer `convertKeys`,
the scalar coercers `setIntField` / `setUintField` / `setBoolField` /
`setFloatField` / `setWithProperType`, the custom-decode hooks
`bindUnmarshaler` / `unmarshalFieldNonPtr` / `unmarshalFieldPtr` /
`unmarshalField`, the zero test `isZeroOfUnderlyingType`, and the recursive
binder `BindToPtr` / `Bind`.

Modelling conventions:

* Go struct types are described by the inductive `Ty` (scalar kinds with bit
  widths, pointers, slices, nested structs, and types implementing the
  `BindUnmarshaler` interface, identified by a numeric id).  Struct fields
  carry their declared name, settability (`CanSet`), and struct-tag list.
* Runtime values are the inductive `Value`.  Machine integers are modelled as
  unbounded `Int` / `Nat` (the parsers enforce the bit-width range exactly as
  `strconv.ParseInt` / `ParseUint` do, so in-range representability is
  maintained); floats are modelled as exact rationals, which agrees with Go on
  everything the theorems below use (zero, parse success/failure on the
  decimal forms).  `strings.ToLower` is modelled with `Char.toLower`, which
  matches Go on ASCII.
* A Go `map[string][]string` is modelled as an association list `Keymap`
  carrying one concrete iteration order of the map; `convertKeys` folds over
  that order with last-writer-wins inserts, exactly as the Go range loop does.
* The methods `UnmarshalParam` of custom-decode types are arbitrary user code;
  they are modelled by an environment `CustomEnv` mapping the type id to a
  state-transition function taking the receiver's starting state and the
  parameter string.  `reflect.New` in `bindUnmarshaler` corresponds to passing
  the zero state `0`.
* Mutation of the target struct is modelled by state passing: every binding
  function returns the new value of the storage it works on together with the
  optional error, since `BindToPtr` mutates through the pointer even when it
  subsequently returns an error.
* The Go runtime panic on `inputValue[0]` when the looked-up value slice is
  empty is modelled by the dedicated error `BindErr.outOfRange`; an operation
  on reflect's zero `Value` (unreachable for well-typed inputs) by
  `BindErr.invalid`.
-/

set_option linter.unusedVariables false

namespace Binding

/-! ## Scalar parsing: models of the strconv calls used by the coercers -/

/-- Effective bit size: Go's `strconv` treats `bitSize = 0` as the platform
`int` size, 64 bits. -/
def effBits (bitSize : Nat) : Nat :=
  if bitSize = 0 then 64 else bitSize

/-- Value of a decimal digit character, if it is one. -/
def digitVal (c : Char) : Option Nat :=
  if c.isDigit then some (c.toNat - 48) else none

/-- Accumulate decimal digits; fails on any non-digit. -/
def parseDigitsAux : List Char → Nat → Option Nat
  | [], acc => some acc
  | c :: cs, acc =>
    match digitVal c with
    | some d => parseDigitsAux cs (acc * 10 + d)
    | none => none

/-- A non-empty run of decimal digits, as a number. -/
def parseDigits : List Char → Option Nat
  | [] => none
  | cs => parseDigitsAux cs 0

/-- Model of `strconv.ParseInt(s, 10, bitSize)`: optional sign, non-empty
decimal digits, signed range check at the effective bit width.  On overflow Go
returns a non-nil error, which this model folds into `none`. -/
def parseInt (s : String) (bitSize : Nat) : Option Int :=
  let b := effBits bitSize
  let signDigits : Int × List Char :=
    match s.toList with
    | '+' :: r => (1, r)
    | '-' :: r => (-1, r)
    | r => (1, r)
  match parseDigits signDigits.2 with
  | none => none
  | some n =>
    let val : Int := signDigits.1 * (n : Int)
    if -(2 ^ (b - 1) : Int) ≤ val ∧ val ≤ 2 ^ (b - 1) - 1 then some val else none

/-- Model of `strconv.ParseUint(s, 10, bitSize)`: no sign permitted, non-empty
decimal digits, unsigned range check at the effective bit width. -/
def parseUint (s : String) (bitSize : Nat) : Option Nat :=
  let b := effBits bitSize
  match parseDigits s.toList with
  | none => none
  | some n => if n < 2 ^ b then some n else none

/-- Model of `strconv.ParseBool`: accepts exactly the Go literal set. -/
def parseBool (s : String) : Option Bool :=
  if s = "1" ∨ s = "t" ∨ s = "T" ∨ s = "true" ∨ s = "TRUE" ∨ s = "True" then
    some true
  else if s = "0" ∨ s = "f" ∨ s = "F" ∨ s = "false" ∨ s = "FALSE" ∨ s = "False" then
    some false
  else none

/-- Split a character list into its leading run of decimal digits and the
rest. -/
def spanDigits : List Char → List Char × List Char
  | [] => ([], [])
  | c :: cs =>
    if c.isDigit then
      match spanDigits cs with
      | (ds, rest) => (c :: ds, rest)
    else ([], c :: cs)

/-- Exponent part of a float literal (after the `e`/`E`). -/
def parseFloatExp (sign base : Rat) (r : List Char) : Option Rat :=
  let signDigits : Int × List Char :=
    match r with
    | '+' :: t => (1, t)
    | '-' :: t => (-1, t)
    | t => (1, t)
  match parseDigits signDigits.2 with
  | none => none
  | some e => some (sign * base * (10 : Rat) ^ (signDigits.1 * (e : Int)))

/-- Model of `strconv.ParseFloat` on the ordinary decimal forms
(`[sign] digits [. digits] [e|E [sign] digits]`, with at least one mantissa
digit), producing the exact rational value.  The exotic inputs Go additionally
accepts (`inf`, `nan`, hexadecimal floats, digit-separating underscores) and
the float32/float64 rounding and range behaviour are outside this model; no
theorem below depends on them. -/
def parseFloat (s : String) : Option Rat :=
  let signRest : Rat × List Char :=
    match s.toList with
    | '+' :: r => (1, r)
    | '-' :: r => (-1, r)
    | r => (1, r)
  match spanDigits signRest.2 with
  | (intDs, rest) =>
    let fracRest : List Char × List Char :=
      match rest with
      | '.' :: r => spanDigits r
      | _ => ([], rest)
    if intDs.isEmpty && fracRest.1.isEmpty then none
    else
      match parseDigitsAux (intDs ++ fracRest.1) 0 with
      | none => none
      | some m =>
        let base : Rat := (m : Rat) / ((10 : Rat) ^ fracRest.1.length)
        match fracRest.2 with
        | [] => some (signRest.1 * base)
        | 'e' :: r => parseFloatExp signRest.1 base r
        | 'E' :: r => parseFloatExp signRest.1 base r
        | _ => none

/-! ## Key normalization: `convertKeys` -/

/-- A Go `map[string][]string` in one concrete iteration order: the keymap
fed to `Bind` / `BindToPtr`.  A well-formed map enumeration has pairwise
distinct keys; Go does not specify (and indeed randomizes) the order. -/
abbrev Keymap := List (String × List String)

/-- Model of `strings.Replace(s, string(c), "", -1)` at the character level. -/
def removeChar (c : Char) (s : List Char) : List Char :=
  s.filter (fun x => x ≠ c)

/-- Model of `strings.ToLower` (exact on ASCII, the domain of every theorem
below; Go additionally lowers non-ASCII letters). -/
def lowerString (s : String) : String :=
  String.mk (s.toList.map Char.toLower)

/-- The key normalization applied by `convertKeys` to every keymap key:
remove every `_`, then every `-`, then lower-case. -/
def normalizeKey (k : String) : String :=
  lowerString (String.mk (removeChar '-' (removeChar '_' k.toList)))

/-- Map update with Go semantics: `dest[k] = v` overwrites an existing entry
for `k` and otherwise appends a new one. -/
def mapSet (m : Keymap) (k : String) (v : List String) : Keymap :=
  if m.any (fun p => p.1 == k) then
    m.map (fun p => if p.1 == k then (k, v) else p)
  else m ++ [(k, v)]

/-- Model of `convertKeys`: rebuild the map with every key normalized,
iterating the source map in its enumeration order (last writer wins when two
distinct keys normalize to the same string). -/
def convertKeys (source : Keymap) : Keymap :=
  source.foldl (fun dest p => mapSet dest (normalizeKey p.1) p.2) []

/-- Model of the map lookup `data[inputFieldName]`: `none` plays the role of
`exists = false`. -/
def lookupKey (m : Keymap) (k : String) : Option (List String) :=
  match m.find? (fun p => p.1 == k) with
  | some p => some p.2
  | none => none

/-! ## The schema and value model -/

mutual
/-- Description of a Go type as the binder sees it through `reflect`:
scalar kinds (with declared bit width for the sized ones), pointer, slice,
struct, or a type implementing the `BindUnmarshaler` interface (identified by
an id into a `CustomEnv`). -/
inductive Ty where
  | tint (bitSize : Nat)
  | tuint (bitSize : Nat)
  | tbool
  | tfloat (bitSize : Nat)
  | tstr
  | tslice (elem : Ty)
  | tptr (elem : Ty)
  | tstruct (fields : FieldList)
  | tcustom (id : Nat)
  deriving DecidableEq

/-- One struct field: declared name, `CanSet` (true exactly for exported,
addressable fields — for such fields `CanInterface` also holds), the struct
tags as a key/value list, and the field's type. -/
inductive Field where
  | mk (name : String) (canSet : Bool) (tags : List (String × String)) (ty : Ty)
  deriving DecidableEq

/-- The ordered field list of a struct type. -/
inductive FieldList where
  | nil
  | cons (f : Field) (t : FieldList)
  deriving DecidableEq
end

mutual
/-- A runtime value.  `vnil` is a nil pointer, `vptr w` a pointer to `w`;
`vcustom st` is the opaque state of a `BindUnmarshaler` type (zero value:
state `0`).  The zero value of a slice (Go `nil`) is `vslice .nil`; the engine
never stores an empty non-nil slice, so the Go distinction between a nil and
an empty slice is not observable here. -/
inductive Value where
  | vint (n : Int)
  | vuint (n : Nat)
  | vbool (b : Bool)
  | vfloat (q : Rat)
  | vstr (s : String)
  | vslice (elems : ValueList)
  | vstruct (fields : ValueList)
  | vnil
  | vptr (pointee : Value)
  | vcustom (state : Int)
  deriving DecidableEq

/-- A list of runtime values (the fields of a struct value, or the elements
of a slice). -/
inductive ValueList where
  | nil
  | cons (v : Value) (t : ValueList)
  deriving DecidableEq
end

def Field.name : Field → String
  | .mk nm _ _ _ => nm

def Field.canSet : Field → Bool
  | .mk _ cs _ _ => cs

def Field.tags : Field → List (String × String)
  | .mk _ _ tg _ => tg

def Field.ty : Field → Ty
  | .mk _ _ _ t => t

def ValueList.toList : ValueList → List Value
  | .nil => []
  | .cons v vs => v :: vs.toList

def ValueList.length : ValueList → Nat
  | .nil => 0
  | .cons _ vs => vs.length + 1

/-- Model of `reflect.StructTag.Get`: first entry for the key, or `""`. -/
def tagGet (tags : List (String × String)) (key : String) : String :=
  match tags.find? (fun p => p.1 == key) with
  | some p => p.2
  | none => ""

/-- The `binding` directive tag namespace (`fieldTagBinding` in the source). -/
def fieldTagBinding : String := "binding"

mutual
/-- The zero value of a type (`reflect.New(...).Elem()`). -/
def zeroValue : Ty → Value
  | .tint _ => .vint 0
  | .tuint _ => .vuint 0
  | .tbool => .vbool false
  | .tfloat _ => .vfloat 0
  | .tstr => .vstr ""
  | .tslice _ => .vslice .nil
  | .tptr _ => .vnil
  | .tstruct fs => .vstruct (zeroValues fs)
  | .tcustom _ => .vcustom 0

/-- Zero values of a field list. -/
def zeroValues : FieldList → ValueList
  | .nil => .nil
  | .cons (.mk _ _ _ t) fs => .cons (zeroValue t) (zeroValues fs)
end

mutual
/-- Model of `isZeroOfUnderlyingType`: `reflect.DeepEqual` of a (well-typed)
value with the zero value of its type.  A non-nil pointer is never
deep-equal to the nil zero pointer, whatever it points to. -/
def isZeroOfUnderlyingType : Value → Bool
  | .vint n => n == 0
  | .vuint n => n == 0
  | .vbool b => b == false
  | .vfloat q => q == 0
  | .vstr s => s == ""
  | .vslice .nil => true
  | .vslice (.cons _ _) => false
  | .vstruct vs => isZeroValues vs
  | .vnil => true
  | .vptr _ => false
  | .vcustom st => st == 0

/-- All the values of a list are zero. -/
def isZeroValues : ValueList → Bool
  | .nil => true
  | .cons v vs => isZeroOfUnderlyingType v && isZeroValues vs
end

/-! ## The custom-decode hook (`BindUnmarshaler`) -/

/-- The `UnmarshalParam` implementations of the program's custom-decode
types: for each type id, a function from the receiver's starting state and the
parameter string to the receiver's new state and the returned error. -/
def CustomEnv : Type :=
  Nat → Int → String → Int × Option String

/-- The errors of the engine.  `outOfRange` models the Go runtime panic of
indexing `inputValue[0]` on an empty slice; `invalid` models operations on
reflect's zero `Value` (unreachable on well-typed inputs). -/
inductive BindErr where
  | notStruct
  | required (field : String)
  | conversion (value : String)
  | unknownType
  | custom (msg : String)
  | outOfRange
  | invalid
  deriving DecidableEq

/-- Model of `bindUnmarshaler`: does `*T`, for the field's type `T`, implement
`BindUnmarshaler`?  Returns the decoder id if so. -/
def bindUnmarshaler : Ty → Option Nat
  | .tcustom id => some id
  | _ => none

/-- Model of `unmarshalFieldNonPtr`: when the type is a custom-decode type,
call `UnmarshalParam` on a freshly allocated zero receiver (`reflect.New` —
starting state `0`), then overwrite the field with the receiver's state
unconditionally (even when the decode returned an error), and report the value
as handled together with that error. -/
def unmarshalFieldNonPtr (env : CustomEnv) (t : Ty) (value : String) (field : Value) :
    Bool × Value × Option BindErr :=
  match bindUnmarshaler t with
  | some id =>
    let r := env id 0 value
    (true, .vcustom r.1, r.2.map BindErr.custom)
  | none => (false, field, none)

/-- Model of `unmarshalFieldPtr`: if the pointer field is nil, first allocate
a zero pointee (this side effect persists even when the pointee's type turns
out not to be a custom-decode type), then run `unmarshalFieldNonPtr` on the
pointee. -/
def unmarshalFieldPtr (env : CustomEnv) (elem : Ty) (value : String) (field : Value) :
    Bool × Value × Option BindErr :=
  let pointee : Value :=
    match field with
    | .vptr w => w
    | _ => zeroValue elem
  match unmarshalFieldNonPtr env elem value pointee with
  | (handled, w, e) => (handled, .vptr w, e)

/-- Model of `unmarshalField`: dispatch on the declared kind, pointer kinds to
the pointer variant and everything else to the direct variant. -/
def unmarshalField (env : CustomEnv) (valueKind : Ty) (value : String) (field : Value) :
    Bool × Value × Option BindErr :=
  match valueKind with
  | .tptr elem => unmarshalFieldPtr env elem value field
  | _ => unmarshalFieldNonPtr env valueKind value field

/-! ## The scalar setters -/

/-- Model of `setIntField`: empty input becomes `"0"`; the field is set only
when parsing succeeded, and the parse error is returned otherwise. -/
def setIntField (value : String) (bitSize : Nat) (field : Value) : Value × Option BindErr :=
  let value := if value == "" then "0" else value
  match parseInt value bitSize with
  | some n => (.vint n, none)
  | none => (field, some (.conversion value))

/-- Model of `setUintField`: empty input becomes `"0"`. -/
def setUintField (value : String) (bitSize : Nat) (field : Value) : Value × Option BindErr :=
  let value := if value == "" then "0" else value
  match parseUint value bitSize with
  | some n => (.vuint n, none)
  | none => (field, some (.conversion value))

/-- Model of `setBoolField`: empty input becomes `"false"`. -/
def setBoolField (value : String) (field : Value) : Value × Option BindErr :=
  let value := if value == "" then "false" else value
  match parseBool value with
  | some b => (.vbool b, none)
  | none => (field, some (.conversion value))

/-- Model of `setFloatField`: empty input becomes `"0.0"`. -/
def setFloatField (value : String) (bitSize : Nat) (field : Value) : Value × Option BindErr :=
  let value := if value == "" then "0.0" else value
  match parseFloat value with
  | some q => (.vfloat q, none)
  | none => (field, some (.conversion value))

/-- Model of `setWithProperType`: first offer the value to `unmarshalField`
(honouring its outcome when it declares the value handled — note this call
can allocate a nil pointer's pointee as a side effect), then dispatch on the
declared kind.  Pointer kinds recurse into the pointee; unknown kinds produce
the `"unknown type"` error. -/
def setWithProperType (env : CustomEnv) (valueKind : Ty) (val : String) (field : Value) :
    Value × Option BindErr :=
  match unmarshalField env valueKind val field with
  | (true, v1, e1) => (v1, e1)
  | (false, v1, _) =>
    match valueKind with
    | .tptr elem =>
      match v1 with
      | .vptr pointee =>
        match setWithProperType env elem val pointee with
        | (pointee2, e) => (.vptr pointee2, e)
      | _ => (v1, some .invalid)
    | .tint b => setIntField val b v1
    | .tuint b => setUintField val b v1
    | .tbool => setBoolField val v1
    | .tfloat b => setFloatField val b v1
    | .tstr => (.vstr val, none)
    | _ => (v1, some .unknownType)

/-- The slice-filling loop of `BindToPtr` (lines building
`reflect.MakeSlice` and coercing each value into its slot): each slot starts
at the element type's zero value; the first element error aborts the loop and
is returned (the built slice is then discarded, leaving the field unchanged).
-/
def setSlice (env : CustomEnv) (elem : Ty) : List String → Except BindErr ValueList
  | [] => .ok .nil
  | s :: rest =>
    match setWithProperType env elem s (zeroValue elem) with
    | (w, none) =>
      match setSlice env elem rest with
      | .ok ws => .ok (.cons w ws)
      | .error e => .error e
    | (_, some e) => .error e

/-! ## The recursive binder -/

/-- Is the type's reflect kind `Struct`? -/
def isStructTy : Ty → Bool
  | .tstruct _ => true
  | _ => false


/-- The value-setting block of `BindToPtr`'s field loop (from the
`unmarshalField` call through the slice/scalar assignment).  Returns the
field's new value, the error if any, and whether the loop `continue`s past the
required-check (which it does exactly when `unmarshalField` declared the value
handled).  `iv0` is `inputValue[0]`; `rest` the remaining values. -/
def bindSet (env : CustomEnv) (fty : Ty) (iv0 : String) (rest : List String) (field : Value) :
    Value × Option BindErr × Bool :=
  match unmarshalField env fty iv0 field with
  | (true, v1, e1) => (v1, e1, true)
  | (false, v1, _) =>
    match fty with
    | .tslice elem =>
      match setSlice env elem (iv0 :: rest) with
      | .ok ws => (.vslice ws, none, false)
      | .error e => (v1, some e, false)
    | _ =>
      match setWithProperType env fty iv0 v1 with
      | (v2, e2) => (v2, e2, false)

/-- The lookup-and-bind block of `BindToPtr`'s field loop (lines from
`inputValue, exists := data[inputFieldName]` through the required check).
An absent key skips the field entirely — including the required check.  A
present key with an empty value slice hits `inputValue[0]` and panics
(`outOfRange`).  The required check compares the field's new value with its
type's zero value and reports the resolved lookup key. -/
def bindLookup (env : CustomEnv) (fty : Ty) (inputFieldName bindingFieldName : String)
    (field : Value) (d : Keymap) : Value × Option BindErr :=
  match lookupKey d inputFieldName with
  | none => (field, none)
  | some inputValue =>
    match inputValue with
    | [] => (field, some .outOfRange)
    | iv0 :: rest =>
      match bindSet env fty iv0 rest field with
      | (v1, some e, _) => (v1, some e)
      | (v1, none, true) => (v1, none)
      | (v1, none, false) =>
        if bindingFieldName == "required" && isZeroOfUnderlyingType v1 then
          (v1, some (.required inputFieldName))
        else (v1, none)

mutual
/-- Model of `BindToPtr`: normalize the keymap, require a struct target, then
fold the field loop over the fields, stopping at the first error (mutations
made before the error persist, as the Go code writes through the pointer). -/
def BindToPtr (env : CustomEnv) (tag : String) (t : Ty) (v : Value) (data : Keymap) :
    Value × Option BindErr :=
  let d := convertKeys data
  match t with
  | .tstruct fields =>
    match v with
    | .vstruct vals =>
      match bindFields env tag fields vals d with
      | (vals1, e) => (.vstruct vals1, e)
    | _ => (v, some .invalid)
  | _ => (v, some .notStruct)

/-- The field loop of `BindToPtr`, in declaration order, stopping at the
first error. -/
def bindFields (env : CustomEnv) (tag : String) (fs : FieldList) (vs : ValueList)
    (d : Keymap) : ValueList × Option BindErr :=
  match fs, vs with
  | .nil, vs => (vs, none)
  | .cons _ _, .nil => (.nil, none)
  | .cons f fs, .cons v vs =>
    match bindField env tag f v d with
    | (v1, some e) => (.cons v1 vs, some e)
    | (v1, none) =>
      match bindFields env tag fs vs d with
      | (vs1, e) => (.cons v1 vs1, e)

/-- One iteration of the field loop of `BindToPtr`: skip unsettable fields
and fields whose source tag is `-`; for an untagged field fall back to the
lower-cased field name, and if the field is a struct that does not implement
`BindUnmarshaler`, recurse with the same keymap and tag namespace instead of
looking the field up; otherwise look the resolved key up and bind. -/
def bindField (env : CustomEnv) (tag : String) (f : Field) (v : Value) (d : Keymap) :
    Value × Option BindErr :=
  match f with
  | .mk nm canSet tags fty =>
    if canSet = false then (v, none)
    else
      let inputFieldName := tagGet tags tag
      let bindingFieldName := tagGet tags fieldTagBinding
      if inputFieldName = "-" then (v, none)
      else if inputFieldName = "" then
        if (bindUnmarshaler fty).isNone && isStructTy fty then
          BindToPtr env tag fty v d
        else bindLookup env fty (lowerString nm) bindingFieldName v d
      else bindLookup env fty inputFieldName bindingFieldName v d
end

/-- Model of `Bind`: allocate a fresh zero instance of the target type
(`reflect.New`), bind into it, and return it unless an error occurred. -/
def Bind (env : CustomEnv) (tag : String) (t : Ty) (data : Keymap) : Except BindErr Value :=
  match BindToPtr env tag t (zeroValue t) data with
  | (v, none) => .ok v
  | (_, some e) => .error e

/-! ## Derived predicates and a concrete custom-decode environment -/

/-- The scalar kinds covered by the numeric/boolean conversion rule: integer,
unsigned integer, float, and bool. -/
def numBoolKind : Ty → Bool
  | .tint _ => true
  | .tuint _ => true
  | .tfloat _ => true
  | .tbool => true
  | _ => false

/-- Whether the input string parses for the given scalar kind, per the
corresponding `strconv` model. -/
def scalarParses (t : Ty) (s : String) : Bool :=
  match t with
  | .tint b => (parseInt s b).isSome
  | .tuint b => (parseUint s b).isSome
  | .tbool => (parseBool s).isSome
  | .tfloat _ => (parseFloat s).isSome
  | _ => false

/-- A trivial custom-decode environment: every decoder keeps its state and
reports success (used to instantiate theorems at concrete inputs). -/
def env0 : CustomEnv := fun _ st _ => (st, none)

/-- A failing custom-decode environment: every decoder moves off the zero
state and reports an error (used to instantiate theorems at concrete
inputs). -/
def envE : CustomEnv := fun _ st _ => (st + 7, some "boom")

/-- The key a field resolves to in `bindField`'s lookup path: either the
field's literal non-empty, non-skip source tag, or (for an untagged field
that is not sent into struct recursion) the lower-cased field name. -/
def resolvesTo (tags : List (String × String)) (tag nm : String) (fty : Ty) (k : String) : Prop :=
  (tagGet tags tag = k ∧ k ≠ "-" ∧ k ≠ "") ∨
    (tagGet tags tag = "" ∧ k = lowerString nm ∧
      ((bindUnmarshaler fty).isNone && isStructTy fty) = false)

/-! ## Helper lemmas about the field loop -/

/-- A settable field that resolves to lookup key `k` runs the
lookup-and-bind block on `k`. -/
theorem bindField_eq_bindLookup (env : CustomEnv) (tag nm : String)
    (tags : List (String × String)) (fty : Ty) (v : Value) (d : Keymap) (k : String)
    (hres : resolvesTo tags tag nm fty k) :
    bindField env tag (.mk nm true tags fty) v d
      = bindLookup env fty k (tagGet tags fieldTagBinding) v d := by
  rcases hres with ⟨h1, h2, h3⟩ | ⟨h1, h2, h3⟩
  · simp [bindField, h1, h2, h3]
  · subst h2
    rcases Bool.and_eq_false_iff.mp h3 with h4 | h4 <;> simp [bindField, h1, h4]

/-- `convertKeys` of a one-entry keymap normalizes the single key. -/
theorem convertKeys_singleton (k : String) (vs : List String) :
    convertKeys [(k, vs)] = [(normalizeKey k, vs)] := by
  simp [convertKeys, mapSet]

/-- `BindToPtr` depends on its keymap argument only through `convertKeys`. -/
theorem BindToPtr_congr_convertKeys (env : CustomEnv) (tag : String) (t : Ty) (v : Value)
    (d1 d2 : Keymap) (h : convertKeys d1 = convertKeys d2) :
    BindToPtr env tag t v d1 = BindToPtr env tag t v d2 := by
  cases t <;> simp [BindToPtr, h]

/-! ## Claim theorems -/

/-- C6: for every target whose type is not a record, binding fails with the
target-not-record error whatever the keymap contains (the outcome is the same
for every keymap, so the keymap is never consulted), and the same check
guards `Bind` and every (recursive) `BindToPtr` call. -/
theorem notStruct_fails (env : CustomEnv) (tag : String) (t : Ty) (v : Value) (data : Keymap)
    (h : isStructTy t = false) :
    BindToPtr env tag t v data = (v, some .notStruct) ∧
    Bind env tag t data = .error .notStruct := by
  have h1 : BindToPtr env tag t v data = (v, some .notStruct) := by
    cases t <;> simp_all [BindToPtr, isStructTy]
  have h2 : BindToPtr env tag t (zeroValue t) data = (zeroValue t, some .notStruct) := by
    cases t <;> simp_all [BindToPtr, isStructTy]
  exact ⟨h1, by simp [Bind, h2]⟩

/-- Witness for C6 at a concrete non-record target. -/
theorem notStruct_fails_witness :
    BindToPtr env0 "form" (.tint 0) (.vint 3) [("a", ["b"])] = (.vint 3, some .notStruct) ∧
    Bind env0 "form" (.tint 0) [("a", ["b"])] = .error .notStruct :=
  notStruct_fails env0 "form" (.tint 0) (.vint 3) [("a", ["b"])] (by decide)

/-- C9: a field whose source tag under the active tag namespace is `-` is
skipped outright: the keymap is never read for it (the result does not depend
on `d` at all), its value is returned unchanged, and no error — in particular
no required error — is produced. -/
theorem skip_tag_field_untouched (env : CustomEnv) (tag nm : String) (canSet : Bool)
    (tags : List (String × String)) (fty : Ty) (v : Value) (d : Keymap)
    (h : tagGet tags tag = "-") :
    bindField env tag (.mk nm canSet tags fty) v d = (v, none) := by
  cases canSet <;> simp [bindField, h]

/-- Witness for C9: a required-tagged, skip-marked field with a matching key
in the keymap still binds nothing and raises nothing. -/
theorem skip_tag_field_untouched_witness :
    bindField env0 "form" (.mk "Name" true [("form", "-"), ("binding", "required")] .tstr)
      (.vstr "") [("name", ["x"]), ("-", ["y"])] = (.vstr "", none) :=
  skip_tag_field_untouched env0 "form" "Name" true [("form", "-"), ("binding", "required")]
    .tstr (.vstr "") [("name", ["x"]), ("-", ["y"])] (by decide)

/-- C8: an untagged field whose type is a struct that does not implement
`BindUnmarshaler` is bound by recursing the whole binder into it with the
same keymap and the same tag namespace — its behaviour is exactly the
recursive call's, for every keymap, so no keymap entry named after the field
is ever required or looked up. -/
theorem untagged_struct_recurses (env : CustomEnv) (tag nm : String)
    (tags : List (String × String)) (fs : FieldList) (v : Value) (d : Keymap)
    (h : tagGet tags tag = "") :
    bindField env tag (.mk nm true tags (.tstruct fs)) v d
      = BindToPtr env tag (.tstruct fs) v d := by
  simp [bindField, h, bindUnmarshaler, isStructTy]

/-- Witness for C8: the spec's street example — the inner field is populated
through the recursive pass, with no outer key named `address` present. -/
theorem untagged_struct_recurses_witness :
    bindField env0 "form"
        (.mk "Address" true [] (.tstruct (.cons (.mk "Street" true [] .tstr) .nil)))
        (.vstruct (.cons (.vstr "") .nil)) [("street", ["Main St"])]
      = BindToPtr env0 "form" (.tstruct (.cons (.mk "Street" true [] .tstr) .nil))
        (.vstruct (.cons (.vstr "") .nil)) [("street", ["Main St"])] :=
  untagged_struct_recurses env0 "form" "Address" []
    (.cons (.mk "Street" true [] .tstr) .nil)
    (.vstruct (.cons (.vstr "") .nil)) [("street", ["Main St"])] (by decide)

/-- C10: a custom-decode (`BindUnmarshaler`) field is decoded by running
`UnmarshalParam` on a freshly allocated zero receiver (starting state `0`),
never on the field's current contents (`st` and `p` do not appear in the
results), and the field is overwritten with the decoded state even when the
decode returns an error; the same holds one pointer level up, and the
overwrite (with the error propagated and the required check skipped) is what
the field loop commits for such a field. -/
theorem custom_decode_fresh_zero_overwrites (env : CustomEnv) (id : Nat) (s : String)
    (st : Int) (p : Value) (tag nm k : String) (tags : List (String × String))
    (d : Keymap) (rest : List String)
    (hk : tagGet tags tag = k) (h1 : k ≠ "-") (h2 : k ≠ "")
    (hl : lookupKey d k = some (s :: rest)) :
    unmarshalField env (.tcustom id) s (.vcustom st)
        = (true, .vcustom (env id 0 s).1, ((env id 0 s).2).map .custom) ∧
    unmarshalField env (.tptr (.tcustom id)) s (.vptr p)
        = (true, .vptr (.vcustom (env id 0 s).1), ((env id 0 s).2).map .custom) ∧
    bindField env tag (.mk nm true tags (.tcustom id)) (.vcustom st) d
        = (.vcustom (env id 0 s).1, ((env id 0 s).2).map .custom) := by
  refine ⟨by simp [unmarshalField, unmarshalFieldNonPtr, bindUnmarshaler],
          by simp [unmarshalField, unmarshalFieldPtr, unmarshalFieldNonPtr, bindUnmarshaler],
          ?_⟩
  rw [bindField_eq_bindLookup env tag nm tags (.tcustom id) (.vcustom st) d k
    (Or.inl ⟨hk, h1, h2⟩)]
  simp only [bindLookup, hl, bindSet, unmarshalField, unmarshalFieldNonPtr, bindUnmarshaler]
  rcases (env id 0 s).2 <;> simp

/-- Witness for C10, with a decoder that moves off the zero state and fails:
the field is overwritten with the decoded state and the error surfaces. -/
theorem custom_decode_fresh_zero_overwrites_witness :
    unmarshalField envE (.tcustom 0) "x" (.vcustom 99)
        = (true, .vcustom 7, some (.custom "boom")) ∧
    unmarshalField envE (.tptr (.tcustom 0)) "x" (.vptr (.vcustom 5))
        = (true, .vptr (.vcustom 7), some (.custom "boom")) ∧
    bindField envE "form" (.mk "C" true [("form", "c")] (.tcustom 0)) (.vcustom 99)
        [("c", ["x"])] = (.vcustom 7, some (.custom "boom")) :=
  custom_decode_fresh_zero_overwrites envE 0 "x" 99 (.vcustom 5) "form" "C" "c"
    [("form", "c")] [("c", ["x"])] [] (by decide) (by decide) (by decide) (by decide)

/-- C2 (code bug): a settable field whose resolved key is present but maps to
an empty value sequence does not leave the field at zero with no error, as
the spec requires — the unguarded `inputValue[0]` read makes the binding call
crash with an index-out-of-range panic. -/
theorem empty_values_out_of_range :
    BindToPtr env0 "form"
        (.tstruct (.cons (.mk "Name" true [("form", "name")] .tstr) .nil))
        (.vstruct (.cons (.vstr "") .nil)) [("name", [])]
      = (.vstruct (.cons (.vstr "") .nil), some .outOfRange) := by decide

/-- C4 counterexample: the `_`-stripping normalization is not applied to the
field-name fallback.  For an untagged field named `User_name`, the fallback
key is only the lower-cased `"user_name"`, while the keymap key `"user_name"`
was normalized to `"username"` — so the field stays at its zero value even
though normalizing the fallback (as the claim states) would have found the
entry. -/
theorem fallback_not_normalized_counterexample :
    BindToPtr env0 "form" (.tstruct (.cons (.mk "User_name" true [] .tstr) .nil))
        (.vstruct (.cons (.vstr "") .nil)) [("user_name", ["x"])]
      = (.vstruct (.cons (.vstr "") .nil), none) ∧
    lowerString "User_name" = "user_name" ∧
    normalizeKey "User_name" = "username" ∧
    lookupKey (convertKeys [("user_name", ["x"])]) "username" = some ["x"] := by decide

/-- C4 (amended): the strip-`_`/`-`-then-lower-case normalization is applied
to every keymap key (the fallback of an untagged field is only lower-cased,
and explicit tag values are matched literally), so the keys `"user_name"`,
`"User-Name"` and `"username"` are interchangeable for every schema — in
particular they resolve identically for a field whose fallback name is
`username`. -/
theorem keymap_keys_normalized (env : CustomEnv) (tag : String) (t : Ty) (v : Value)
    (vs : List String) :
    BindToPtr env tag t v [("user_name", vs)] = BindToPtr env tag t v [("username", vs)] ∧
    BindToPtr env tag t v [("User-Name", vs)] = BindToPtr env tag t v [("username", vs)] ∧
    normalizeKey "user_name" = "username" ∧
    normalizeKey "User-Name" = "username" ∧
    normalizeKey "username" = "username" := by
  refine ⟨?_, ?_, by decide, by decide, by decide⟩
  · exact BindToPtr_congr_convertKeys env tag t v _ _ (by
      rw [convertKeys_singleton, convertKeys_singleton]
      congr 1)
  · exact BindToPtr_congr_convertKeys env tag t v _ _ (by
      rw [convertKeys_singleton, convertKeys_singleton]
      congr 1)

/-! ## Parsing facts for the conversion rule -/

/-- `strconv.ParseInt` accepts `"0"` at every bit width. -/
theorem parseInt_zero_str (b : Nat) : parseInt "0" b = some 0 := by
  have h0 : (0 : Int) < 2 ^ (effBits b - 1) := by positivity
  simp [parseInt, parseDigits, parseDigitsAux, digitVal]
  omega

/-- `strconv.ParseUint` accepts `"0"` at every bit width. -/
theorem parseUint_zero_str (b : Nat) : parseUint "0" b = some 0 := by
  have h0 : 0 < 2 ^ effBits b := Nat.pos_pow_of_pos _ (by omega)
  simp [parseUint, parseDigits, parseDigitsAux, digitVal]

/-- `strconv.ParseBool` accepts `"false"`. -/
theorem parseBool_false_str : parseBool "false" = some false := by decide

/-- The substituted float literal `"0.0"` parses to zero. -/
theorem parseFloat_zero_str : parseFloat "0.0" = some 0 := by
  simp [parseFloat, spanDigits, parseDigitsAux, digitVal, Char.isDigit]

/-- C7: for every integer, unsigned-integer or float field the empty input
string yields the kind's zero value with no error, for a boolean field it
yields `false` with no error, and for each of these kinds a non-empty input
string that does not parse always yields a conversion error carrying that
string and leaves the field unchanged — it is never silently coerced to
zero. -/
theorem scalar_empty_zero_unparseable_error (env : CustomEnv) (t : Ty) (v : Value)
    (s : String) (hk : numBoolKind t = true) :
    setWithProperType env t "" v = (zeroValue t, none) ∧
    (s ≠ "" → scalarParses t s = false →
      setWithProperType env t s v = (v, some (.conversion s))) := by
  cases t with
  | tint b =>
    refine ⟨by simp [setWithProperType, unmarshalField, unmarshalFieldNonPtr, bindUnmarshaler,
      setIntField, parseInt_zero_str, zeroValue], fun hs hp => ?_⟩
    have hpn : parseInt s b = none := by
      cases ho : parseInt s b with
      | none => rfl
      | some n => simp [scalarParses, ho] at hp
    simp [setWithProperType, unmarshalField, unmarshalFieldNonPtr, bindUnmarshaler,
      setIntField, hs, hpn]
  | tuint b =>
    refine ⟨by simp [setWithProperType, unmarshalField, unmarshalFieldNonPtr, bindUnmarshaler,
      setUintField, parseUint_zero_str, zeroValue], fun hs hp => ?_⟩
    have hpn : parseUint s b = none := by
      cases ho : parseUint s b with
      | none => rfl
      | some n => simp [scalarParses, ho] at hp
    simp [setWithProperType, unmarshalField, unmarshalFieldNonPtr, bindUnmarshaler,
      setUintField, hs, hpn]
  | tbool =>
    refine ⟨by simp [setWithProperType, unmarshalField, unmarshalFieldNonPtr, bindUnmarshaler,
      setBoolField, parseBool_false_str, zeroValue], fun hs hp => ?_⟩
    have hpn : parseBool s = none := by
      cases ho : parseBool s with
      | none => rfl
      | some bv => simp [scalarParses, ho] at hp
    simp [setWithProperType, unmarshalField, unmarshalFieldNonPtr, bindUnmarshaler,
      setBoolField, hs, hpn]
  | tfloat b =>
    refine ⟨by simp [setWithProperType, unmarshalField, unmarshalFieldNonPtr, bindUnmarshaler,
      setFloatField, parseFloat_zero_str, zeroValue], fun hs hp => ?_⟩
    have hpn : parseFloat s = none := by
      cases ho : parseFloat s with
      | none => rfl
      | some q => simp [scalarParses, ho] at hp
    simp [setWithProperType, unmarshalField, unmarshalFieldNonPtr, bindUnmarshaler,
      setFloatField, hs, hpn]
  | tstr => simp [numBoolKind] at hk
  | tslice e => simp [numBoolKind] at hk
  | tptr e => simp [numBoolKind] at hk
  | tstruct fs => simp [numBoolKind] at hk
  | tcustom id => simp [numBoolKind] at hk

/-- Witness for C7 at the `int` kind: `""` binds zero, `"abc"` errors and
leaves the field's prior value in place. -/
theorem scalar_empty_zero_unparseable_error_witness :
    setWithProperType env0 (.tint 0) "" (.vint 5) = (.vint 0, none) ∧
    setWithProperType env0 (.tint 0) "abc" (.vint 5) = (.vint 5, some (.conversion "abc")) :=
  ⟨(scalar_empty_zero_unparseable_error env0 (.tint 0) (.vint 5) "abc" (by decide)).1,
   (scalar_empty_zero_unparseable_error env0 (.tint 0) (.vint 5) "abc" (by decide)).2
     (by decide) (by decide)⟩

/-! ## Slice-loop facts -/

/-- On success, the built sequence has one slot per input value. -/
theorem setSlice_ok_length (env : CustomEnv) (et : Ty) (ivs : List String) :
    ∀ ws, setSlice env et ivs = .ok ws → ws.toList.length = ivs.length := by
  induction ivs with
  | nil =>
    intro ws h
    simp only [setSlice] at h
    cases h
    rfl
  | cons s rest ih =>
    intro ws h
    simp only [setSlice] at h
    rcases hw : setWithProperType env et s (zeroValue et) with ⟨w, e⟩
    rw [hw] at h
    cases e with
    | some e0 => simp at h
    | none =>
      cases hr : setSlice env et rest with
      | error e0 => rw [hr] at h; simp at h
      | ok ws2 =>
        rw [hr] at h
        cases h
        simpa [ValueList.toList] using ih ws2 hr

/-- On success, slot `j` holds exactly the positional coercion of input
value `j` from the element type's zero value. -/
theorem setSlice_ok_get (env : CustomEnv) (et : Ty) (ivs : List String) :
    ∀ ws, setSlice env et ivs = .ok ws →
      ∀ j (hj : j < ws.toList.length) (hj2 : j < ivs.length),
        ws.toList.get ⟨j, hj⟩
          = (setWithProperType env et (ivs.get ⟨j, hj2⟩) (zeroValue et)).1 := by
  induction ivs with
  | nil =>
    intro ws h j hj hj2
    exact absurd hj2 (by simp)
  | cons s rest ih =>
    intro ws h j hj hj2
    simp only [setSlice] at h
    rcases hw : setWithProperType env et s (zeroValue et) with ⟨w, e⟩
    rw [hw] at h
    cases e with
    | some e0 => simp at h
    | none =>
      cases hr : setSlice env et rest with
      | error e0 => rw [hr] at h; simp at h
      | ok ws2 =>
        rw [hr] at h
        cases h
        cases j with
        | zero => simp [ValueList.toList, hw]
        | succ jj =>
          simp only [ValueList.toList, List.get_cons_succ, List.get_cons_succ]
          exact ih ws2 hr jj _ _

/-- A sequence built from at least one input value is never the zero value of
a slice type. -/
theorem setSlice_ok_nonzero (env : CustomEnv) (et : Ty) (s : String) (rest : List String)
    (ws : ValueList) (h : setSlice env et (s :: rest) = .ok ws) :
    isZeroOfUnderlyingType (.vslice ws) = false := by
  simp only [setSlice] at h
  rcases hw : setWithProperType env et s (zeroValue et) with ⟨w, e⟩
  rw [hw] at h
  cases e with
  | some e0 => simp at h
  | none =>
    cases hr : setSlice env et rest with
    | error e0 => rw [hr] at h; simp at h
    | ok ws2 =>
      rw [hr] at h
      cases h
      rfl

/-- C5: a slice-typed field with a non-empty value sequence for its resolved
key is bound by coercing each value positionally (each from the element
type's zero slot, in the keymap's stored order) into a fresh sequence of the
same length; the sequence is committed — with no error, the required check
being vacuous on a non-empty sequence — only when every element coerces, and
if any element fails the field loop returns that error with the field left
unchanged. -/
theorem slice_field_positional (env : CustomEnv) (tag nm k : String)
    (tags : List (String × String)) (et : Ty) (v : Value) (d : Keymap)
    (iv0 : String) (rest : List String)
    (hres : resolvesTo tags tag nm (.tslice et) k)
    (hl : lookupKey d k = some (iv0 :: rest)) :
    (∀ e, setSlice env et (iv0 :: rest) = .error e →
        bindField env tag (.mk nm true tags (.tslice et)) v d = (v, some e)) ∧
    (∀ ws, setSlice env et (iv0 :: rest) = .ok ws →
        bindField env tag (.mk nm true tags (.tslice et)) v d = (.vslice ws, none) ∧
        ws.toList.length = (iv0 :: rest).length ∧
        ∀ j (hj : j < ws.toList.length) (hj2 : j < (iv0 :: rest).length),
          ws.toList.get ⟨j, hj⟩
            = (setWithProperType env et ((iv0 :: rest).get ⟨j, hj2⟩) (zeroValue et)).1) := by
  have hb := bindField_eq_bindLookup env tag nm tags (.tslice et) v d k hres
  constructor
  · intro e he
    rw [hb]
    simp [bindLookup, hl, bindSet, unmarshalField, unmarshalFieldNonPtr, bindUnmarshaler, he]
  · intro ws hw
    refine ⟨?_, setSlice_ok_length env et _ ws hw, setSlice_ok_get env et _ ws hw⟩
    rw [hb]
    have hz := setSlice_ok_nonzero env et iv0 rest ws hw
    simp [bindLookup, hl, bindSet, unmarshalField, unmarshalFieldNonPtr, bindUnmarshaler, hw, hz]

/-- Witness for C5 at the spec's example: binding `tags = ["a","b","c"]` into
a string-slice field yields exactly that sequence, in order. -/
theorem slice_field_positional_witness :
    bindField env0 "form" (.mk "Tags" true [("form", "tags")] (.tslice .tstr))
        (.vslice .nil) [("tags", ["a", "b", "c"])]
      = (.vslice (.cons (.vstr "a") (.cons (.vstr "b") (.cons (.vstr "c") .nil))), none) :=
  ((slice_field_positional env0 "form" "Tags" "tags" [("form", "tags")] .tstr
      (.vslice .nil) [("tags", ["a", "b", "c"])] "a" ["b", "c"]
      (Or.inl ⟨rfl, by decide, by decide⟩) (by decide)).2
    (.cons (.vstr "a") (.cons (.vstr "b") (.cons (.vstr "c") .nil))) rfl).1

/-- C1 counterexample: a field tagged `required` whose resolved key `"name"`
is absent from the keymap, left at its zero value, does NOT fail — the field
loop `continue`s on a missing key before ever reaching the required check, so
the call succeeds with no error (the claim demands a required-missing error
naming `"name"`). -/
theorem required_absent_no_error_counterexample :
    BindToPtr env0 "form"
        (.tstruct (.cons (.mk "Name" true [("form", "name"), ("binding", "required")] .tstr) .nil))
        (.vstruct (.cons (.vstr "") .nil)) []
      = (.vstruct (.cons (.vstr "") .nil), none) := by decide

/-- C1 (amended): the required check runs only when the value-setting block
falls through to validation.  For a settable field with directive `required`
resolving to key `k`: if `k` is absent from the keymap the field is skipped
with no error (and no required failure); if `k` is present, the value-setting
block is not claimed by the custom-decode path, it completes without an
error, and it leaves the field at its type's zero value, the loop fails with
the required-missing error carrying exactly `k`; but if the custom-decode
path claims the value (the `continue` at the handled branch), the required
check is skipped even when the decoded result is the zero value. -/
theorem required_zero_after_hit_fails (env : CustomEnv) (tag nm k : String)
    (tags : List (String × String)) (fty : Ty) (v : Value) (d : Keymap)
    (hres : resolvesTo tags tag nm fty k)
    (hreq : tagGet tags fieldTagBinding = "required") :
    (lookupKey d k = none →
        bindField env tag (.mk nm true tags fty) v d = (v, none)) ∧
    (∀ iv0 rest v2, lookupKey d k = some (iv0 :: rest) →
        bindSet env fty iv0 rest v = (v2, none, false) →
        isZeroOfUnderlyingType v2 = true →
        bindField env tag (.mk nm true tags fty) v d = (v2, some (.required k))) ∧
    (∀ iv0 rest v2, lookupKey d k = some (iv0 :: rest) →
        bindSet env fty iv0 rest v = (v2, none, true) →
        bindField env tag (.mk nm true tags fty) v d = (v2, none)) := by
  have hb := bindField_eq_bindLookup env tag nm tags fty v d k hres
  refine ⟨?_, ?_, ?_⟩
  · intro hl
    rw [hb]
    simp [bindLookup, hl]
  · intro iv0 rest v2 hl hset hz
    rw [hb]
    simp [bindLookup, hl, hset, hreq, hz]
  · intro iv0 rest v2 hl hset
    rw [hb]
    simp [bindLookup, hl, hset]

/-- Witness for C1's amended claim: with the key present and binding to the
zero string the loop fails with `required "name"`; with the key absent it
succeeds silently; and a required custom-decode field whose decoder succeeds
with the zero state is `continue`d past the required check, so it also
succeeds silently. -/
theorem required_zero_after_hit_fails_witness :
    bindField env0 "form" (.mk "Name" true [("form", "name"), ("binding", "required")] .tstr)
        (.vstr "") [("name", [""])] = (.vstr "", some (.required "name")) ∧
    bindField env0 "form" (.mk "Name" true [("form", "name"), ("binding", "required")] .tstr)
        (.vstr "") [] = (.vstr "", none) ∧
    bindField env0 "form" (.mk "C" true [("form", "c"), ("binding", "required")] (.tcustom 0))
        (.vcustom 5) [("c", ["x"])] = (.vcustom 0, none) :=
  ⟨((required_zero_after_hit_fails env0 "form" "Name" "name"
      [("form", "name"), ("binding", "required")] .tstr (.vstr "") [("name", [""])]
      (Or.inl ⟨rfl, by decide, by decide⟩) rfl).2.1) "" [] (.vstr "") (by decide) rfl (by decide),
   (required_zero_after_hit_fails env0 "form" "Name" "name"
      [("form", "name"), ("binding", "required")] .tstr (.vstr "") []
      (Or.inl ⟨rfl, by decide, by decide⟩) rfl).1 (by decide),
   ((required_zero_after_hit_fails env0 "form" "C" "c"
      [("form", "c"), ("binding", "required")] (.tcustom 0) (.vcustom 5) [("c", ["x"])]
      (Or.inl ⟨rfl, by decide, by decide⟩) rfl).2.2) "x" [] (.vcustom 0) (by decide) rfl⟩

/-! ## Character and normalization facts -/

/-- A small valid code point survives `Char.ofNat`. -/
theorem char_toNat_ofNat {n : Nat} (h : n < 55296) : (Char.ofNat n).toNat = n := by
  rw [Char.ofNat, dif_pos (Or.inl h)]
  simp [Char.ofNatAux, Char.toNat, UInt32.ofNat']
  rfl

/-- Lower-casing an ASCII upper-case letter adds 32 to its code point. -/
theorem toLower_toNat_of_upper {c : Char} (h1 : 65 ≤ c.toNat) (h2 : c.toNat ≤ 90) :
    (Char.toLower c).toNat = c.toNat + 32 := by
  have he : Char.toLower c = Char.ofNat (c.toNat + 32) := by
    unfold Char.toLower
    exact if_pos ⟨h1, h2⟩
  rw [he]
  exact char_toNat_ofNat (by omega)

/-- `Char.toLower` fixes everything that is not an ASCII upper-case letter. -/
theorem toLower_eq_self_of_not_upper {c : Char} (h : ¬(65 ≤ c.toNat ∧ c.toNat ≤ 90)) :
    Char.toLower c = c := by
  unfold Char.toLower
  exact if_neg h

/-- `Char.toLower` is idempotent. -/
theorem toLower_toLower (c : Char) : Char.toLower (Char.toLower c) = Char.toLower c := by
  by_cases h : 65 ≤ c.toNat ∧ c.toNat ≤ 90
  · apply toLower_eq_self_of_not_upper
    rw [toLower_toNat_of_upper h.1 h.2]
    omega
  · rw [toLower_eq_self_of_not_upper h, toLower_eq_self_of_not_upper h]

/-- `Char.toLower` cannot produce a character below code point 97 (such as
`_` or `-`) out of a different character. -/
theorem toLower_ne_small {c t : Char} (ht : t.toNat < 97) (h : c ≠ t) :
    Char.toLower c ≠ t := by
  by_cases hu : 65 ≤ c.toNat ∧ c.toNat ≤ 90
  · intro he
    have h2 := toLower_toNat_of_upper hu.1 hu.2
    rw [he] at h2
    omega
  · rw [toLower_eq_self_of_not_upper hu]
    exact h

/-- `String.mk` and `String.toList` are inverse. -/
theorem toList_mk (l : List Char) : (String.mk l).toList = l := rfl

/-- `normalizeKey` is idempotent: its output contains no `_` or `-` and no
upper-case letter, so a second pass changes nothing. -/
theorem normalizeKey_idem (k : String) : normalizeKey (normalizeKey k) = normalizeKey k := by
  unfold normalizeKey lowerString
  simp only [toList_mk]
  congr 1
  have hprop : ∀ y ∈ removeChar '-' (removeChar '_' k.toList), y ≠ '_' ∧ y ≠ '-' := by
    intro y hy
    unfold removeChar at hy
    have h2 := (List.mem_filter.mp hy).2
    have h1 := (List.mem_filter.mp (List.mem_filter.mp hy).1).2
    simp only [decide_eq_true_eq] at h1 h2
    exact ⟨h1, h2⟩
  revert hprop
  generalize removeChar '-' (removeChar '_' k.toList) = l
  intro hprop
  have h1 : removeChar '_' (l.map Char.toLower) = l.map Char.toLower := by
    unfold removeChar
    rw [List.filter_eq_self]
    intro c hc
    rcases List.mem_map.mp hc with ⟨y, hy, rfl⟩
    simp only [decide_eq_true_eq]
    exact toLower_ne_small (by decide) (hprop y hy).1
  rw [h1]
  have h2 : removeChar '-' (l.map Char.toLower) = l.map Char.toLower := by
    unfold removeChar
    rw [List.filter_eq_self]
    intro c hc
    rcases List.mem_map.mp hc with ⟨y, hy, rfl⟩
    simp only [decide_eq_true_eq]
    exact toLower_ne_small (by decide) (hprop y hy).2
  rw [h2, List.map_map]
  exact List.map_congr_left (fun a ha => toLower_toLower a)

/-! ## Keymap enumeration facts -/

/-- The keys of a keymap enumeration, in order. -/
def keysOf (m : Keymap) : List String := m.map Prod.fst

/-- Inserting a fresh key appends. -/
theorem mapSet_of_not_mem (m : Keymap) (k : String) (v : List String)
    (h : ¬ k ∈ keysOf m) : mapSet m k v = m ++ [(k, v)] := by
  unfold mapSet
  rw [if_neg]
  intro hc
  apply h
  rcases List.any_eq_true.mp hc with ⟨p, hp, hpk⟩
  exact (beq_iff_eq.mp hpk) ▸ List.mem_map_of_mem Prod.fst hp

/-- When no two keys of the enumeration normalize to the same string, the
fold of `convertKeys` never overwrites: it just maps the normalization over
the enumeration. -/
theorem convertKeys_aux (l : Keymap) :
    ∀ acc : Keymap,
      (l.map fun p => normalizeKey p.1).Nodup →
      (∀ p ∈ l, ¬ normalizeKey p.1 ∈ keysOf acc) →
      l.foldl (fun dest p => mapSet dest (normalizeKey p.1) p.2) acc
        = acc ++ l.map (fun p => (normalizeKey p.1, p.2)) := by
  induction l with
  | nil =>
    intro acc _ _
    simp
  | cons p l ih =>
    intro acc h1 h2
    simp only [List.foldl_cons]
    rw [mapSet_of_not_mem acc _ _ (h2 p (List.mem_cons_self p l))]
    have h1t : (l.map fun q => normalizeKey q.1).Nodup := by
      simp only [List.map_cons, List.nodup_cons] at h1
      exact h1.2
    have h1h : ¬ normalizeKey p.1 ∈ l.map fun q => normalizeKey q.1 := by
      simp only [List.map_cons, List.nodup_cons] at h1
      exact h1.1
    rw [ih (acc ++ [(normalizeKey p.1, p.2)]) h1t ?_]
    · simp
    · intro q hq hmem
      rw [keysOf, List.map_append, List.mem_append] at hmem
      rcases hmem with hA | hB
      · exact h2 q (List.mem_cons_of_mem p hq) hA
      · have hqp : normalizeKey q.1 = normalizeKey p.1 := by simpa using hB
        exact h1h (hqp ▸ List.mem_map_of_mem (fun r => normalizeKey r.1) hq)

/-- `convertKeys` on a collision-free enumeration is a per-entry map. -/
theorem convertKeys_eq_map (l : Keymap)
    (h : (l.map fun p => normalizeKey p.1).Nodup) :
    convertKeys l = l.map (fun p => (normalizeKey p.1, p.2)) := by
  have := convertKeys_aux l [] h (by intro p hp hm; simp [keysOf] at hm)
  simpa [convertKeys] using this

/-- An absent key is exactly a failing lookup. -/
theorem lookupKey_eq_none_iff (m : Keymap) (k : String) :
    lookupKey m k = none ↔ ¬ k ∈ keysOf m := by
  constructor
  · intro h hk
    rcases List.mem_map.mp hk with ⟨p, hp, hpk⟩
    unfold lookupKey at h
    cases hf : m.find? (fun r => r.1 == k) with
    | none =>
      have h3 := List.find?_eq_none.mp hf p hp
      rw [hpk] at h3
      simp at h3
    | some r => rw [hf] at h; cases h
  · intro h
    unfold lookupKey
    cases hf : m.find? (fun r => r.1 == k) with
    | none => rfl
    | some r =>
      exfalso
      apply h
      have h1 : r.1 = k := by
        have h0 := List.find?_some hf
        simpa using h0
      have h2 : r ∈ m := List.mem_of_find?_eq_some hf
      exact h1 ▸ List.mem_map_of_mem Prod.fst h2

/-- A successful lookup returns an entry of the enumeration. -/
theorem mem_of_lookupKey_eq_some {m : Keymap} {k : String} {vs : List String}
    (h : lookupKey m k = some vs) : (k, vs) ∈ m := by
  unfold lookupKey at h
  cases hf : m.find? (fun p => p.1 == k) with
  | none => rw [hf] at h; cases h
  | some p =>
    rw [hf] at h
    cases h
    have h1 : p.1 = k := by
      have h0 := List.find?_some hf
      simpa using h0
    have h2 : p ∈ m := List.mem_of_find?_eq_some hf
    rcases p with ⟨a, b⟩
    cases h1
    exact h2

/-- On an enumeration with pairwise-distinct keys, membership determines the
lookup. -/
theorem lookupKey_eq_some_of_mem (m : Keymap) (hn : (keysOf m).Nodup) (k : String)
    (vs : List String) (h : (k, vs) ∈ m) : lookupKey m k = some vs := by
  induction m with
  | nil => cases h
  | cons q m ih =>
    rcases List.mem_cons.mp h with hq | hm
    · subst hq
      simp [lookupKey, List.find?_cons_of_pos]
    · have hn2 : (keysOf m).Nodup := by
        simp only [keysOf, List.map_cons, List.nodup_cons] at hn
        exact hn.2
      have hqk : (q.1 == k) = false := by
        simp only [keysOf, List.map_cons, List.nodup_cons] at hn
        rw [beq_eq_false_iff_ne]
        intro he
        exact hn.1 (he ▸ List.mem_map_of_mem Prod.fst hm)
      unfold lookupKey
      rw [List.find?_cons_of_neg _ (by simp [hqk])]
      exact ih hn2 hm

/-- Lookups on distinct-key enumerations are permutation-invariant. -/
theorem lookupKey_perm (m1 m2 : Keymap) (hp : m1.Perm m2) (hn : (keysOf m1).Nodup)
    (k : String) : lookupKey m1 k = lookupKey m2 k := by
  have hn2 : (keysOf m2).Nodup := ((hp.map Prod.fst).nodup_iff).mp hn
  cases hl : lookupKey m1 k with
  | none =>
    symm
    rw [lookupKey_eq_none_iff] at hl ⊢
    intro hk
    exact hl ((hp.map Prod.fst).mem_iff.mpr hk)
  | some vs =>
    exact (lookupKey_eq_some_of_mem m2 hn2 k vs (hp.subset (mem_of_lookupKey_eq_some hl))).symm

/-- `bindLookup` consults the keymap only through `lookupKey`. -/
theorem bindLookup_congr (env : CustomEnv) (fty : Ty) (k b : String) (v : Value)
    (c1 c2 : Keymap) (h : lookupKey c1 k = lookupKey c2 k) :
    bindLookup env fty k b v c1 = bindLookup env fty k b v c2 := by
  simp only [bindLookup, h]

/-! ## Permutation invariance of the binder on collision-free keymaps -/

/-- A keymap that is already normalized: pairwise-distinct keys, each a fixed
point of `normalizeKey` (the shape `convertKeys` produces on collision-free
input). -/
def goodMap (c : Keymap) : Prop :=
  (keysOf c).Nodup ∧ ∀ p ∈ c, normalizeKey p.1 = p.1

/-- `goodMap` transfers along permutations. -/
theorem goodMap_perm {c1 c2 : Keymap} (hp : c1.Perm c2) (hg : goodMap c1) : goodMap c2 :=
  ⟨((hp.map Prod.fst).nodup_iff).mp hg.1, fun p hp2 => hg.2 p (hp.mem_iff.mpr hp2)⟩

/-- `convertKeys` fixes an already-normalized keymap. -/
theorem convertKeys_good {c : Keymap} (hg : goodMap c) : convertKeys c = c := by
  have hkeys : (c.map fun p => normalizeKey p.1) = keysOf c :=
    List.map_congr_left (fun p hp => hg.2 p hp)
  rw [convertKeys_eq_map c (by rw [hkeys]; exact hg.1)]
  have hid : ∀ p ∈ c, (normalizeKey p.1, p.2) = p := by
    intro p hp
    rcases p with ⟨a, b⟩
    rw [hg.2 ⟨a, b⟩ hp]
  calc c.map (fun p => (normalizeKey p.1, p.2)) = c.map id := List.map_congr_left hid
    _ = c := List.map_id c

/-- On collision-free input, `convertKeys` produces a `goodMap`. -/
theorem convertKeys_goodMap (l : Keymap)
    (h : (l.map fun p => normalizeKey p.1).Nodup) : goodMap (convertKeys l) := by
  rw [convertKeys_eq_map l h]
  constructor
  · unfold keysOf
    rw [List.map_map]
    simpa using h
  · intro p hp
    rcases List.mem_map.mp hp with ⟨q, hq, rfl⟩
    exact normalizeKey_idem q.1

mutual
/-- The recursive binder gives equal results on permuted already-normalized
keymaps. -/
theorem BindToPtr_perm (env : CustomEnv) (tag : String) (t : Ty) (v : Value)
    (c1 c2 : Keymap) (hp : c1.Perm c2) (hg : goodMap c1) :
    BindToPtr env tag t v c1 = BindToPtr env tag t v c2 := by
  have e1 : convertKeys c1 = c1 := convertKeys_good hg
  have e2 : convertKeys c2 = c2 := convertKeys_good (goodMap_perm hp hg)
  cases t with
  | tstruct fields =>
    cases v with
    | vstruct vals =>
      simp only [BindToPtr, e1, e2,
        bindFields_perm env tag fields vals c1 c2 hp hg]
    | vint n => simp [BindToPtr]
    | vuint n => simp [BindToPtr]
    | vbool b => simp [BindToPtr]
    | vfloat q => simp [BindToPtr]
    | vstr s => simp [BindToPtr]
    | vslice ws => simp [BindToPtr]
    | vnil => simp [BindToPtr]
    | vptr w => simp [BindToPtr]
    | vcustom st => simp [BindToPtr]
  | tint b => simp [BindToPtr]
  | tuint b => simp [BindToPtr]
  | tbool => simp [BindToPtr]
  | tfloat b => simp [BindToPtr]
  | tstr => simp [BindToPtr]
  | tslice e => simp [BindToPtr]
  | tptr e => simp [BindToPtr]
  | tcustom id => simp [BindToPtr]

/-- The field loop gives equal results on permuted already-normalized
keymaps. -/
theorem bindFields_perm (env : CustomEnv) (tag : String) (fs : FieldList) (vs : ValueList)
    (c1 c2 : Keymap) (hp : c1.Perm c2) (hg : goodMap c1) :
    bindFields env tag fs vs c1 = bindFields env tag fs vs c2 := by
  cases fs with
  | nil => simp [bindFields]
  | cons f fs =>
    cases vs with
    | nil => simp [bindFields]
    | cons v vs =>
      simp only [bindFields, bindField_perm env tag f v c1 c2 hp hg,
        bindFields_perm env tag fs vs c1 c2 hp hg]

/-- One field-loop iteration gives equal results on permuted
already-normalized keymaps. -/
theorem bindField_perm (env : CustomEnv) (tag : String) (f : Field) (v : Value)
    (c1 c2 : Keymap) (hp : c1.Perm c2) (hg : goodMap c1) :
    bindField env tag f v c1 = bindField env tag f v c2 := by
  rcases f with ⟨nm, cs, tags, fty⟩
  cases cs with
  | false => simp [bindField]
  | true =>
    by_cases h1 : tagGet tags tag = "-"
    · simp [bindField, h1]
    · by_cases h2 : tagGet tags tag = ""
      · by_cases h3 : ((bindUnmarshaler fty).isNone && isStructTy fty) = true
        · simp only [bindField, h1, h2, h3]
          simp only [if_false, if_true, if_pos, eq_self_iff_true]
          simp [BindToPtr_perm env tag fty v c1 c2 hp hg]
        · simp only [bindField, h2]
          simp [h3, bindLookup_congr env fty (lowerString nm)
            (tagGet tags fieldTagBinding) v c1 c2 (lookupKey_perm c1 c2 hp hg.1 _)]
      · simp only [bindField]
        simp [h1, h2, bindLookup_congr env fty (tagGet tags tag)
          (tagGet tags fieldTagBinding) v c1 c2 (lookupKey_perm c1 c2 hp hg.1 _)]
end

/-- C3 counterexample: binding is not deterministic when two distinct source
keys normalize to the same string — the Go map iteration order (which the
language randomizes) decides which entry wins.  The two enumerations below
describe the same map, yet bind different values. -/
theorem binding_order_dependent_counterexample :
    ([("a_b", ["1"]), ("ab", ["2"])] : Keymap).Perm [("ab", ["2"]), ("a_b", ["1"])] ∧
    BindToPtr env0 "form" (.tstruct (.cons (.mk "Ab" true [] .tstr) .nil))
        (.vstruct (.cons (.vstr "") .nil)) [("a_b", ["1"]), ("ab", ["2"])]
      = (.vstruct (.cons (.vstr "2") .nil), none) ∧
    BindToPtr env0 "form" (.tstruct (.cons (.mk "Ab" true [] .tstr) .nil))
        (.vstruct (.cons (.vstr "") .nil)) [("ab", ["2"]), ("a_b", ["1"])]
      = (.vstruct (.cons (.vstr "1") .nil), none) ∧
    (Value.vstruct (.cons (.vstr "2") .nil), (none : Option BindErr))
      ≠ (Value.vstruct (.cons (.vstr "1") .nil), none) := by
  refine ⟨by decide, by decide, by decide, by decide⟩

/-- C3 (amended): binding is deterministic for keymaps in which no two
distinct source keys normalize to the same string: any two enumerations of
such a map yield structurally equal results for every schema, value and tag
namespace.  (With colliding keys the result depends on the enumeration
order, as the counterexample shows.) -/
theorem binding_deterministic_without_collisions (env : CustomEnv) (tag : String)
    (t : Ty) (v : Value) (l1 l2 : Keymap) (hperm : l1.Perm l2)
    (hinj : (l1.map fun p => normalizeKey p.1).Nodup) :
    BindToPtr env tag t v l1 = BindToPtr env tag t v l2 := by
  have hinj2 : (l2.map fun p => normalizeKey p.1).Nodup :=
    ((hperm.map _).nodup_iff).mp hinj
  have g1 : goodMap (convertKeys l1) := convertKeys_goodMap l1 hinj
  have hpc : (convertKeys l1).Perm (convertKeys l2) := by
    rw [convertKeys_eq_map l1 hinj, convertKeys_eq_map l2 hinj2]
    exact hperm.map _
  have s1 : BindToPtr env tag t v l1 = BindToPtr env tag t v (convertKeys l1) :=
    BindToPtr_congr_convertKeys env tag t v _ _ (convertKeys_good g1).symm
  have s2 : BindToPtr env tag t v l2 = BindToPtr env tag t v (convertKeys l2) :=
    BindToPtr_congr_convertKeys env tag t v _ _
      (convertKeys_good (goodMap_perm hpc g1)).symm
  rw [s1, s2]
  exact BindToPtr_perm env tag t v _ _ hpc g1

/-- Witness for C3's amended claim: two enumerations of a collision-free
keymap bind identically. -/
theorem binding_deterministic_without_collisions_witness :
    BindToPtr env0 "form" (.tstruct (.cons (.mk "Username" true [] .tstr) .nil))
        (.vstruct (.cons (.vstr "") .nil)) [("user_name", ["x"]), ("age", ["3"])]
      = BindToPtr env0 "form" (.tstruct (.cons (.mk "Username" true [] .tstr) .nil))
        (.vstruct (.cons (.vstr "") .nil)) [("age", ["3"]), ("user_name", ["x"])] :=
  binding_deterministic_without_collisions env0 "form"
    (.tstruct (.cons (.mk "Username" true [] .tstr) .nil))
    (.vstruct (.cons (.vstr "") .nil))
    [("user_name", ["x"]), ("age", ["3"])] [("age", ["3"]), ("user_name", ["x"])]
    (by decide) (by decide)

end Binding
